import Mathlib

/-!
Shallow embedding of the redshirt native-program message bus
(src/core/src/native/collection.rs) and proofs of the specified properties.

The wrapped native programs themselves are external to the collection (they
are trait objects supplied by the caller of push); their observable behaviour
is modelled by (a) an oracle argument giving the result of polling the
program's future, and (b) a per-adapter log of the calls the adapter forwards
to its program.
-/

namespace Redshirt

/-- Process identifier: opaque 64-bit value, equality only. -/
abbrev Pid := Nat

/-- Message identifier: opaque 64-bit value. -/
abbrev MessageId := Nat

/-- Interface hash: a 32-byte value, modelled as a byte list. -/
abbrev InterfaceHash := List Nat

/-- EncodedMessage: an immutable byte sequence. -/
abbrev EncodedMessage := List Nat

/-- Rust Result type. -/
inductive RustResult (T E : Type) : Type
  | ok (value : T)
  | err (error : E)
  deriving DecidableEq

/-- Result<EncodedMessage, ()>: the payload of a response. -/
abbrev MessageResult := RustResult EncodedMessage Unit

/-- Rust core::task::Poll. -/
inductive Poll (A : Type) : Type
  | ready (value : A)
  | pending
  deriving DecidableEq

/-- HashSet::insert, on a set modelled as a duplicate-free list. -/
def hsInsert [DecidableEq A] (s : List A) (x : A) : List A :=
  if x ∈ s then s else x :: s

/-- A call forwarded by an adapter to its wrapped native program: the
observable effect of delivery operations on the program. -/
inductive ProgramCall : Type
  | interfaceMessage (interface : InterfaceHash) (message_id : Option MessageId)
      (emitter_pid : Pid) (message : EncodedMessage)
  | messageResponse (message_id : MessageId) (response : MessageResult)
  | processDestroyed (pid : Pid)
  deriving DecidableEq

/-- Adapter: wraps one native program. `registered_interfaces` and
`expected_responses` are the two mutex-guarded hash sets of the source
(modelled as lists used as sets); `inner_calls` is the log of calls the
adapter has forwarded to its wrapped program, in order. -/
structure Adapter : Type where
  registered_interfaces : List InterfaceHash
  expected_responses : List MessageId
  inner_calls : List ProgramCall
  deriving DecidableEq

/-- Adapter::deliver_interface_message: if the interface is in the registered
set, forward the message to the program and return Ok; otherwise return the
message back with Err so the router can try the next adapter. -/
def Adapter.deliver_interface_message (a : Adapter) (interface : InterfaceHash)
    (message_id : Option MessageId) (emitter_pid : Pid) (message : EncodedMessage) :
    Adapter × RustResult Unit EncodedMessage :=
  if interface ∈ a.registered_interfaces then
    ({ a with inner_calls := a.inner_calls ++
        [ProgramCall.interfaceMessage interface message_id emitter_pid message] },
      RustResult.ok ())
  else
    (a, RustResult.err message)

/-- Adapter::deliver_response: HashSet::remove both tests and removes; on a
hash set removal leaves no occurrence, hence the filter. If the identifier
was expected, forward the response to the program and return Ok; otherwise
return the response back with Err. -/
def Adapter.deliver_response (a : Adapter) (message_id : MessageId)
    (response : MessageResult) :
    Adapter × RustResult Unit MessageResult :=
  if message_id ∈ a.expected_responses then
    ({ a with
        expected_responses := a.expected_responses.filter (fun y => y != message_id),
        inner_calls := a.inner_calls ++ [ProgramCall.messageResponse message_id response] },
      RustResult.ok ())
  else
    (a, RustResult.err response)

/-- Adapter::process_destroyed: unconditionally forwarded to the program. -/
def Adapter.process_destroyed (a : Adapter) (pid : Pid) : Adapter :=
  { a with inner_calls := a.inner_calls ++ [ProgramCall.processDestroyed pid] }

/-- MessageIdWriteAdapter: holds the program-supplied inner write capability
inside an Option, taken on use so a second use is detected. The inner
capability itself is external (a program value); its only observable is that
it is forwarded the identifier, recorded in the effect trace below. -/
structure MessageIdWriteAdapter : Type where
  inner : Option Unit
  deriving DecidableEq

/-- The two side effects of MessageIdWriteAdapter::acknowledge, in the order
the source performs them. -/
inductive AckEffect : Type
  | forward_inner (id : MessageId)
  | insert_expected (id : MessageId)
  deriving DecidableEq

/-- MessageIdWriteAdapter::acknowledge. `a` is the adapter whose
expected_responses set the capability borrows. Returns none when the inner
Option is already taken: the source hits unreachable!() there (a
double-acknowledge aborts). On success: forward the id to the inner
capability first, then insert it into the expected-responses set. -/
def MessageIdWriteAdapter.acknowledge (w : MessageIdWriteAdapter) (a : Adapter)
    (id : MessageId) :
    Option (MessageIdWriteAdapter × Adapter × List AckEffect) :=
  match w.inner with
  | some _ =>
      some ({ inner := none },
        { a with expected_responses := hsInsert a.expected_responses id },
        [AckEffect.forward_inner id, AckEffect.insert_expected id])
  | none => none

/-- Modelled from the spec: the reserved interface-registration interface
(redshirt_interface_interface::ffi::INTERFACE lives outside src/). A fixed
32-byte hash; its concrete value is irrelevant, only its fixedness matters. -/
def INTERFACE : InterfaceHash := List.replicate 32 255

/-- Modelled from the spec: redshirt_interface_interface::ffi::InterfaceMessage
(outside src/): a single-variant tagged record Register(interface-hash). -/
inductive InterfaceMessage : Type
  | register (interface_hash : InterfaceHash)
  deriving DecidableEq

/-- Modelled from the spec: InterfaceMessage::decode (the Decode impl lives
outside src/). The wire layout is a 1-byte discriminant (0 for the single
Register variant) followed by the 32-byte interface hash; anything else
fails to decode. -/
def InterfaceMessage.decode (message : EncodedMessage) : Option InterfaceMessage :=
  match message with
  | 0 :: rest => if rest.length = 32 then some (InterfaceMessage.register rest) else none
  | _ => none

/-- NativeProgramEvent, parameterised by the message-id-write capability type
as in the source trait. -/
inductive NativeProgramEvent (W : Type) : Type
  | emit (interface : InterfaceHash) (message_id_write : Option W)
      (message : EncodedMessage)
  | cancelMessage (message_id : MessageId)
  | answer (message_id : MessageId) (answer : RustResult EncodedMessage Unit)
  deriving DecidableEq

/-- Adapter::poll_next_event. The wrapped program's future is external; the
result of polling it is the oracle argument `inner_poll`. The program-supplied
inner capability is an opaque token (Unit). On an Emit on the reserved
registration interface whose body decodes, the interface is inserted into the
registered set; a decode failure is silently skipped. The inner capability is
wrapped into a MessageIdWriteAdapter; the event otherwise passes through. -/
def Adapter.poll_next_event (a : Adapter)
    (inner_poll : Poll (NativeProgramEvent Unit)) :
    Adapter × Poll (NativeProgramEvent MessageIdWriteAdapter) :=
  match inner_poll with
  | Poll.ready (NativeProgramEvent.emit interface message_id_write message) =>
      let a' :=
        if interface = INTERFACE then
          match InterfaceMessage.decode message with
          | some (InterfaceMessage.register to_reg) =>
              { a with registered_interfaces := hsInsert a.registered_interfaces to_reg }
          | none => a
        else a
      (a', Poll.ready (NativeProgramEvent.emit interface
        (message_id_write.map (fun inner => { inner := some inner })) message))
  | Poll.ready (NativeProgramEvent.cancelMessage message_id) =>
      (a, Poll.ready (NativeProgramEvent.cancelMessage message_id))
  | Poll.ready (NativeProgramEvent.answer message_id answer) =>
      (a, Poll.ready (NativeProgramEvent.answer message_id answer))
  | Poll.pending => (a, Poll.pending)

/-- NativeProgramsCollectionMessageIdWrite: the bus-scoped capability. The
boxed borrow of the emitting adapter is modelled, as the spec suggests for
implementations without scoped borrows, by the adapter's index in the
collection. -/
structure NativeProgramsCollectionMessageIdWrite : Type where
  adapter_index : Nat
  write : MessageIdWriteAdapter
  deriving DecidableEq

/-- NativeProgramsCollectionEvent: the bus event, an Emit additionally carries
the emitter's Pid and the bus-scoped capability. -/
inductive NativeProgramsCollectionEvent : Type
  | emit (interface : InterfaceHash) (emitter_pid : Pid) (message : EncodedMessage)
      (message_id_write : Option NativeProgramsCollectionMessageIdWrite)
  | cancelMessage (message_id : MessageId)
  | answer (message_id : MessageId) (answer : RustResult EncodedMessage Unit)
  deriving DecidableEq

/-- NativeProgramsCollection: an ordered sequence of (Pid, adapter) pairs. -/
structure NativeProgramsCollection : Type where
  processes : List (Pid × Adapter)
  deriving DecidableEq

/-- A fresh adapter as built by push: empty sets, nothing yet forwarded. -/
def freshAdapter : Adapter :=
  { registered_interfaces := [], expected_responses := [], inner_calls := [] }

/-- NativeProgramsCollection::new. -/
def NativeProgramsCollection.new : NativeProgramsCollection :=
  { processes := [] }

/-- NativeProgramsCollection::push. The wrapped program starts with empty
registered/expected sets. Returns none when the assert! fires, i.e. the pid
is already present: the source panics (process abort), it does not return an
error value. -/
def NativeProgramsCollection.push (c : NativeProgramsCollection) (pid : Pid) :
    Option NativeProgramsCollection :=
  if c.processes.any (fun existing => existing.1 = pid) then none
  else some { processes := c.processes ++ [(pid, freshAdapter)] }

/-- The loop body of NativeProgramsCollection::next_event's poll_fn: walk the
adapters in insertion order, poll each until one is Ready, return the first
Ready result wrapped into a bus event. The oracle list gives each wrapped
program's poll result, positionally (missing entries poll as Pending). Also
returns the list of (absolute) indices of the adapters that were polled, in
order, as the observable trace of the walk. -/
def pollCollection :
    List (Pid × Adapter) → List (Poll (NativeProgramEvent Unit)) → Nat →
    List (Pid × Adapter) × List Nat × Poll NativeProgramsCollectionEvent
  | [], _, _ => ([], [], Poll.pending)
  | (pid, a) :: rest, polls, idx =>
    match a.poll_next_event (polls.headD Poll.pending) with
    | (a', Poll.pending) =>
        let r := pollCollection rest polls.tail (idx + 1)
        ((pid, a') :: r.1, idx :: r.2.1, r.2.2)
    | (a', Poll.ready (NativeProgramEvent.emit interface w message)) =>
        ((pid, a') :: rest, [idx],
          Poll.ready (NativeProgramsCollectionEvent.emit interface pid message
            (w.map (fun ww => { adapter_index := idx, write := ww }))))
    | (a', Poll.ready (NativeProgramEvent.cancelMessage message_id)) =>
        ((pid, a') :: rest, [idx],
          Poll.ready (NativeProgramsCollectionEvent.cancelMessage message_id))
    | (a', Poll.ready (NativeProgramEvent.answer message_id answer)) =>
        ((pid, a') :: rest, [idx],
          Poll.ready (NativeProgramsCollectionEvent.answer message_id answer))

/-- NativeProgramsCollection::next_event: one poll of the returned future.
Yields the updated collection, the trace of polled adapter indices, and the
poll result. -/
def NativeProgramsCollection.next_event (c : NativeProgramsCollection)
    (inner_polls : List (Poll (NativeProgramEvent Unit))) :
    (NativeProgramsCollection × List Nat) × Poll NativeProgramsCollectionEvent :=
  (({ processes := (pollCollection c.processes inner_polls 0).1 },
    (pollCollection c.processes inner_polls 0).2.1),
   (pollCollection c.processes inner_polls 0).2.2)

/-- The loop of NativeProgramsCollection::interface_message: the message is
moved out (mem::replace against an empty placeholder), handed to each adapter
in insertion order, and on Err moved back for the next adapter; the first Ok
stops the walk. -/
def deliverInterfaceMessageLoop :
    List (Pid × Adapter) → InterfaceHash → Option MessageId → Pid → EncodedMessage →
    Option (List (Pid × Adapter))
  | [], _, _, _, _ => none
  | (pid, a) :: rest, interface, message_id, emitter_pid, message =>
    match a.deliver_interface_message interface message_id emitter_pid message with
    | (a', RustResult.ok _) => some ((pid, a') :: rest)
    | (a', RustResult.err msg) =>
        (deliverInterfaceMessageLoop rest interface message_id emitter_pid msg).map
          (fun rest' => (pid, a') :: rest')

/-- NativeProgramsCollection::interface_message. none models the panic!() when
no adapter accepts (unroutable interface message: process abort). -/
def NativeProgramsCollection.interface_message (c : NativeProgramsCollection)
    (interface : InterfaceHash) (message_id : Option MessageId) (emitter_pid : Pid)
    (message : EncodedMessage) : Option NativeProgramsCollection :=
  (deliverInterfaceMessageLoop c.processes interface message_id emitter_pid message).map
    (fun ps => { processes := ps })

/-- The loop of NativeProgramsCollection::message_response: same move-out /
move-back walk as for interface messages, over deliver_response. -/
def deliverResponseLoop :
    List (Pid × Adapter) → MessageId → MessageResult →
    Option (List (Pid × Adapter))
  | [], _, _ => none
  | (pid, a) :: rest, message_id, response =>
    match a.deliver_response message_id response with
    | (a', RustResult.ok _) => some ((pid, a') :: rest)
    | (a', RustResult.err resp) =>
        (deliverResponseLoop rest message_id resp).map
          (fun rest' => (pid, a') :: rest')

/-- NativeProgramsCollection::message_response. none models the panic!() when
no adapter owns the identifier (unroutable response: process abort). -/
def NativeProgramsCollection.message_response (c : NativeProgramsCollection)
    (message_id : MessageId) (response : MessageResult) :
    Option NativeProgramsCollection :=
  (deliverResponseLoop c.processes message_id response).map
    (fun ps => { processes := ps })

/-- NativeProgramsCollection::process_destroyed: broadcast to every adapter. -/
def NativeProgramsCollection.process_destroyed (c : NativeProgramsCollection)
    (pid : Pid) : NativeProgramsCollection :=
  { processes := c.processes.map (fun q => (q.1, q.2.process_destroyed pid)) }

/-- NativeProgramMessageIdWrite::acknowledge for the bus-scoped capability:
resolve the emitting adapter by index and forward to the adapter-scoped
write. none models the unreachable!() abort on a double acknowledge. -/
def NativeProgramsCollectionMessageIdWrite.acknowledge
    (w : NativeProgramsCollectionMessageIdWrite) (c : NativeProgramsCollection)
    (message_id : MessageId) :
    Option (NativeProgramsCollection × List AckEffect) :=
  match c.processes.get? w.adapter_index with
  | none => none
  | some (pid, a) =>
    match w.write.acknowledge a message_id with
    | none => none
    | some (_, a', effects) =>
        some ({ processes := c.processes.set w.adapter_index (pid, a') }, effects)

/-- Pointwise monotonicity of the registered-interfaces sets between two
collection states: same pids at the same positions, and no registered
interface is lost. -/
def regMono (c c' : NativeProgramsCollection) : Prop :=
  ∀ k pa, c.processes.get? k = some pa →
    ∃ pa', c'.processes.get? k = some pa' ∧ pa.1 = pa'.1 ∧
      ∀ H, H ∈ pa.2.registered_interfaces → H ∈ pa'.2.registered_interfaces

/-- A sample interface hash (32 bytes, last byte 1) used in concrete scenarios. -/
def H0 : InterfaceHash := List.replicate 31 0 ++ [1]

/-- An adapter that has registered H0 and has nothing else going on. -/
def aRegH0 : Adapter := ⟨[H0], [], []⟩

/-- An adapter expecting a response to message identifier 42. -/
def aExp42 : Adapter := ⟨[], [42], []⟩

/-! Helper lemmas about the set model. -/

theorem mem_hsInsert_self [DecidableEq A] (s : List A) (x : A) : x ∈ hsInsert s x := by
  unfold hsInsert
  split
  · assumption
  · exact List.mem_cons_self x s

theorem mem_hsInsert_of_mem [DecidableEq A] {s : List A} {y : A} (x : A)
    (h : y ∈ s) : y ∈ hsInsert s x := by
  unfold hsInsert
  split
  · exact h
  · exact List.mem_cons_of_mem x h

theorem not_mem_filter_ne (l : List MessageId) (m : MessageId) :
    m ∉ l.filter (fun y => y != m) := by
  intro h
  have := List.of_mem_filter h
  simp at this

theorem getD_tail (l : List A) (n : Nat) (d : A) :
    l.tail.getD n d = l.getD (n + 1) d := by
  cases l <;> rfl

theorem headD_eq_getD_zero (l : List A) (d : A) : l.headD d = l.getD 0 d := by
  cases l <;> rfl

/-! Helper lemmas about the interface-message walk. -/

theorem interfaceLoop_unroutable (ps : List (Pid × Adapter)) (interface : InterfaceHash)
    (message_id : Option MessageId) (emitter_pid : Pid) (message : EncodedMessage)
    (h : ∀ pa ∈ ps, interface ∉ pa.2.registered_interfaces) :
    deliverInterfaceMessageLoop ps interface message_id emitter_pid message = none := by
  induction ps generalizing message with
  | nil => rfl
  | cons hd rest ih =>
    obtain ⟨pid, a⟩ := hd
    have hna : interface ∉ a.registered_interfaces := h (pid, a) (by simp)
    have hr : ∀ pa ∈ rest, interface ∉ pa.2.registered_interfaces :=
      fun pa hpa => h pa (List.mem_cons_of_mem _ hpa)
    simp [deliverInterfaceMessageLoop, Adapter.deliver_interface_message, hna, ih message hr]

theorem interfaceLoop_accepts (ps : List (Pid × Adapter)) (interface : InterfaceHash)
    (message_id : Option MessageId) (emitter_pid : Pid) (message : EncodedMessage)
    (k : Nat) (pa : Pid × Adapter) (hget : ps.get? k = some pa)
    (hreg : interface ∈ pa.2.registered_interfaces)
    (hbefore : ∀ k' pa', k' < k → ps.get? k' = some pa' →
      interface ∉ pa'.2.registered_interfaces) :
    deliverInterfaceMessageLoop ps interface message_id emitter_pid message =
      some (ps.set k (pa.1, { pa.2 with inner_calls := pa.2.inner_calls ++
        [ProgramCall.interfaceMessage interface message_id emitter_pid message] })) := by
  induction ps generalizing k with
  | nil => simp at hget
  | cons hd rest ih =>
    obtain ⟨pid, a⟩ := hd
    cases k with
    | zero =>
      simp at hget
      subst hget
      simp [deliverInterfaceMessageLoop, Adapter.deliver_interface_message, hreg]
    | succ k =>
      have hna : interface ∉ a.registered_interfaces :=
        hbefore 0 (pid, a) (Nat.succ_pos _) rfl
      have hrec := ih k hget
        (fun k' pa' hk' hget' => hbefore (k' + 1) pa' (Nat.succ_lt_succ hk') hget')
      simp [deliverInterfaceMessageLoop, Adapter.deliver_interface_message, hna, hrec]

theorem interfaceLoop_preserves_sets (ps ps' : List (Pid × Adapter))
    (interface : InterfaceHash) (message_id : Option MessageId) (emitter_pid : Pid)
    (message : EncodedMessage)
    (h : deliverInterfaceMessageLoop ps interface message_id emitter_pid message = some ps') :
    ∀ k pa, ps.get? k = some pa → ∃ pa', ps'.get? k = some pa' ∧ pa.1 = pa'.1 ∧
      pa.2.registered_interfaces = pa'.2.registered_interfaces ∧
      pa.2.expected_responses = pa'.2.expected_responses := by
  induction ps generalizing ps' message with
  | nil => simp [deliverInterfaceMessageLoop] at h
  | cons hd rest ih =>
    obtain ⟨pid, a⟩ := hd
    rw [deliverInterfaceMessageLoop] at h
    by_cases hc : interface ∈ a.registered_interfaces
    · simp [Adapter.deliver_interface_message, hc] at h
      subst h
      intro k pa hget
      cases k with
      | zero =>
        simp at hget
        subst hget
        exact ⟨_, rfl, rfl, rfl, rfl⟩
      | succ k => exact ⟨pa, hget, rfl, rfl, rfl⟩
    · simp [Adapter.deliver_interface_message, hc] at h
      obtain ⟨rest', hrest, hps'⟩ := h
      subst hps'
      intro k pa hget
      cases k with
      | zero =>
        simp at hget
        subst hget
        exact ⟨_, rfl, rfl, rfl, rfl⟩
      | succ k => exact ih rest' message hrest k pa hget

/-! Helper lemmas about the response walk. -/

theorem responseLoop_unroutable (ps : List (Pid × Adapter)) (message_id : MessageId)
    (response : MessageResult)
    (h : ∀ pa ∈ ps, message_id ∉ pa.2.expected_responses) :
    deliverResponseLoop ps message_id response = none := by
  induction ps generalizing response with
  | nil => rfl
  | cons hd rest ih =>
    obtain ⟨pid, a⟩ := hd
    have hna : message_id ∉ a.expected_responses := h (pid, a) (by simp)
    have hr : ∀ pa ∈ rest, message_id ∉ pa.2.expected_responses :=
      fun pa hpa => h pa (List.mem_cons_of_mem _ hpa)
    simp [deliverResponseLoop, Adapter.deliver_response, hna, ih response hr]

theorem responseLoop_accepts (ps : List (Pid × Adapter)) (message_id : MessageId)
    (response : MessageResult)
    (k : Nat) (pa : Pid × Adapter) (hget : ps.get? k = some pa)
    (hexp : message_id ∈ pa.2.expected_responses)
    (hbefore : ∀ k' pa', k' < k → ps.get? k' = some pa' →
      message_id ∉ pa'.2.expected_responses) :
    deliverResponseLoop ps message_id response =
      some (ps.set k (pa.1, { pa.2 with
        expected_responses := pa.2.expected_responses.filter (fun y => y != message_id),
        inner_calls := pa.2.inner_calls ++
          [ProgramCall.messageResponse message_id response] })) := by
  induction ps generalizing k with
  | nil => simp at hget
  | cons hd rest ih =>
    obtain ⟨pid, a⟩ := hd
    cases k with
    | zero =>
      simp at hget
      subst hget
      simp [deliverResponseLoop, Adapter.deliver_response, hexp]
    | succ k =>
      have hna : message_id ∉ a.expected_responses :=
        hbefore 0 (pid, a) (Nat.succ_pos _) rfl
      have hrec := ih k hget
        (fun k' pa' hk' hget' => hbefore (k' + 1) pa' (Nat.succ_lt_succ hk') hget')
      simp [deliverResponseLoop, Adapter.deliver_response, hna, hrec]

theorem responseLoop_preserves_registered (ps ps' : List (Pid × Adapter))
    (message_id : MessageId) (response : MessageResult)
    (h : deliverResponseLoop ps message_id response = some ps') :
    ∀ k pa, ps.get? k = some pa → ∃ pa', ps'.get? k = some pa' ∧ pa.1 = pa'.1 ∧
      pa.2.registered_interfaces = pa'.2.registered_interfaces := by
  induction ps generalizing ps' response with
  | nil => simp [deliverResponseLoop] at h
  | cons hd rest ih =>
    obtain ⟨pid, a⟩ := hd
    rw [deliverResponseLoop] at h
    by_cases hc : message_id ∈ a.expected_responses
    · simp [Adapter.deliver_response, hc] at h
      subst h
      intro k pa hget
      cases k with
      | zero =>
        simp at hget
        subst hget
        exact ⟨_, rfl, rfl, rfl⟩
      | succ k => exact ⟨pa, hget, rfl, rfl⟩
    · simp [Adapter.deliver_response, hc] at h
      obtain ⟨rest', hrest, hps'⟩ := h
      subst hps'
      intro k pa hget
      cases k with
      | zero =>
        simp at hget
        subst hget
        exact ⟨_, rfl, rfl, rfl⟩
      | succ k => exact ih rest' response hrest k pa hget

/-! Helper lemmas about the multiplexer walk. -/

theorem poll_next_event_pending (a : Adapter) :
    a.poll_next_event Poll.pending = (a, Poll.pending) := rfl

theorem poll_next_event_registered_mono (a : Adapter)
    (ip : Poll (NativeProgramEvent Unit)) :
    ∀ H, H ∈ a.registered_interfaces →
      H ∈ (a.poll_next_event ip).1.registered_interfaces := by
  intro H hH
  match ip with
  | Poll.pending => exact hH
  | Poll.ready (NativeProgramEvent.cancelMessage mid) => exact hH
  | Poll.ready (NativeProgramEvent.answer mid ans) => exact hH
  | Poll.ready (NativeProgramEvent.emit interface w m) =>
    show H ∈ (Adapter.poll_next_event a _).1.registered_interfaces
    rw [Adapter.poll_next_event]
    by_cases hi : interface = INTERFACE
    · simp only [hi, if_pos rfl]
      match hdec : InterfaceMessage.decode m with
      | some (InterfaceMessage.register to_reg) =>
        simp [hdec]
        exact mem_hsInsert_of_mem to_reg hH
      | none => simp [hdec]; exact hH
    · simp [hi]
      exact hH

theorem pollCollection_all_pending (ps : List (Pid × Adapter))
    (polls : List (Poll (NativeProgramEvent Unit))) (idx : Nat)
    (h : ∀ k, k < ps.length → polls.getD k Poll.pending = Poll.pending) :
    pollCollection ps polls idx =
      (ps, (List.range ps.length).map (fun n => idx + n), Poll.pending) := by
  induction ps generalizing polls idx with
  | nil => rfl
  | cons hd rest ih =>
    obtain ⟨pid, a⟩ := hd
    have h0 : polls.headD Poll.pending = Poll.pending := by
      rw [headD_eq_getD_zero]
      exact h 0 (Nat.succ_pos _)
    have hr : ∀ k, k < rest.length → polls.tail.getD k Poll.pending = Poll.pending := by
      intro k hk
      rw [getD_tail]
      exact h (k + 1) (Nat.succ_lt_succ hk)
    rw [pollCollection, h0, poll_next_event_pending]
    simp only [ih polls.tail (idx + 1) hr]
    simp [List.range_succ_eq_map, List.map_map, Function.comp]
    intro n _
    omega

theorem pollCollection_first_ready_emit (ps : List (Pid × Adapter))
    (polls : List (Poll (NativeProgramEvent Unit))) (idx : Nat)
    (k : Nat) (pid : Pid) (a : Adapter) (interface : InterfaceHash)
    (w : Option Unit) (m : EncodedMessage)
    (hget : ps.get? k = some (pid, a))
    (hk : polls.getD k Poll.pending =
      Poll.ready (NativeProgramEvent.emit interface w m))
    (hbefore : ∀ k', k' < k → polls.getD k' Poll.pending = Poll.pending) :
    pollCollection ps polls idx =
      (ps.set k (pid,
        (a.poll_next_event (Poll.ready (NativeProgramEvent.emit interface w m))).1),
       (List.range (k + 1)).map (fun n => idx + n),
       Poll.ready (NativeProgramsCollectionEvent.emit interface pid m
         (w.map (fun u => { adapter_index := idx + k, write := { inner := some u } })))) := by
  induction ps generalizing polls idx k with
  | nil => simp at hget
  | cons hd rest ih =>
    obtain ⟨pid0, a0⟩ := hd
    cases k with
    | zero =>
      simp at hget
      obtain ⟨hp, ha⟩ := hget
      subst hp
      subst ha
      have h0 : polls.headD Poll.pending =
          Poll.ready (NativeProgramEvent.emit interface w m) := by
        rw [headD_eq_getD_zero]; exact hk
      rw [pollCollection, h0]
      simp only [Adapter.poll_next_event]
      cases w with
      | none => rfl
      | some u => rfl
    | succ k =>
      have h0 : polls.headD Poll.pending = Poll.pending := by
        rw [headD_eq_getD_zero]
        exact hbefore 0 (Nat.succ_pos _)
      have hk' : polls.tail.getD k Poll.pending =
          Poll.ready (NativeProgramEvent.emit interface w m) := by
        rw [getD_tail]; exact hk
      have hb' : ∀ k', k' < k → polls.tail.getD k' Poll.pending = Poll.pending := by
        intro k' hlt
        rw [getD_tail]
        exact hbefore (k' + 1) (Nat.succ_lt_succ hlt)
      rw [pollCollection, h0, poll_next_event_pending]
      simp only [ih polls.tail (idx + 1) k hget hk' hb']
      have hidx : idx + 1 + k = idx + (k + 1) := by omega
      simp [List.range_succ_eq_map, List.map_map, Function.comp, hidx]
      intro n _
      omega

theorem pollCollection_registered_mono (ps : List (Pid × Adapter))
    (polls : List (Poll (NativeProgramEvent Unit))) (idx : Nat) :
    ∀ k pa, ps.get? k = some pa →
      ∃ pa', (pollCollection ps polls idx).1.get? k = some pa' ∧ pa.1 = pa'.1 ∧
        ∀ H, H ∈ pa.2.registered_interfaces → H ∈ pa'.2.registered_interfaces := by
  induction ps generalizing polls idx with
  | nil => intro k pa hget; simp at hget
  | cons hd rest ih =>
    obtain ⟨pid0, a0⟩ := hd
    intro k pa hget
    have hmono := poll_next_event_registered_mono a0 (polls.headD Poll.pending)
    rcases hpoll : a0.poll_next_event (polls.headD Poll.pending) with ⟨a', r⟩
    rw [hpoll] at hmono
    cases r with
    | pending =>
      cases k with
      | zero =>
        simp at hget
        subst hget
        exact ⟨(pid0, a'), by rw [pollCollection, hpoll]; rfl, rfl, hmono⟩
      | succ k =>
        obtain ⟨pa', hget', hfst, hreg⟩ := ih polls.tail (idx + 1) k pa hget
        exact ⟨pa', by rw [pollCollection, hpoll]; exact hget', hfst, hreg⟩
    | ready ev =>
      cases ev with
      | emit interface w m =>
        cases k with
        | zero =>
          simp at hget
          subst hget
          exact ⟨(pid0, a'), by rw [pollCollection, hpoll]; rfl, rfl, hmono⟩
        | succ k =>
          exact ⟨pa, by rw [pollCollection, hpoll]; exact hget, rfl, fun H hH => hH⟩
      | cancelMessage mid =>
        cases k with
        | zero =>
          simp at hget
          subst hget
          exact ⟨(pid0, a'), by rw [pollCollection, hpoll]; rfl, rfl, hmono⟩
        | succ k =>
          exact ⟨pa, by rw [pollCollection, hpoll]; exact hget, rfl, fun H hH => hH⟩
      | answer mid ans =>
        cases k with
        | zero =>
          simp at hget
          subst hget
          exact ⟨(pid0, a'), by rw [pollCollection, hpoll]; rfl, rfl, hmono⟩
        | succ k =>
          exact ⟨pa, by rw [pollCollection, hpoll]; exact hget, rfl, fun H hH => hH⟩

/-! Claim theorems. -/

/-- Claim C1, counterexample: the claim says a duplicate add reports the
DuplicatePid condition to the caller as a result rather than aborting; in the
source, push hits assert! on a duplicate pid and panics (modelled by none),
so the failure is an abort, not a returned value. -/
theorem C1_counterexample :
    NativeProgramsCollection.push { processes := [(5, freshAdapter)] } 5 = none := by
  decide

/-- Claim C1 (amended): add(p, program) with p already present fails by
aborting the process (assert! panic) without inserting the program; an add
with a fresh Pid succeeds and appends the (Pid, adapter) pair. -/
theorem C1_amended (c : NativeProgramsCollection) (p : Pid) :
    ((∃ pa ∈ c.processes, pa.1 = p) → c.push p = none) ∧
    ((∀ pa ∈ c.processes, pa.1 ≠ p) →
      c.push p = some { processes := c.processes ++ [(p, freshAdapter)] }) := by
  constructor
  · intro hdup
    obtain ⟨pa, hmem, hfst⟩ := hdup
    have hany : c.processes.any (fun existing => existing.1 = p) = true := by
      rw [List.any_eq_true]
      exact ⟨pa, hmem, by simp [hfst]⟩
    simp [NativeProgramsCollection.push, hany]
  · intro hfresh
    have hany : c.processes.any (fun existing => existing.1 = p) = false := by
      rw [List.any_eq_false]
      intro pa hmem
      simp [hfresh pa hmem]
    simp [NativeProgramsCollection.push, hany]

/-- Claim C1 witness: a concrete duplicate add aborts and a concrete fresh
add appends. -/
theorem C1_witness :
    NativeProgramsCollection.push { processes := [(7, freshAdapter)] } 7 = none ∧
    NativeProgramsCollection.push { processes := [(7, freshAdapter)] } 8 =
      some { processes := [(7, freshAdapter), (8, freshAdapter)] } := by
  constructor
  · exact (C1_amended { processes := [(7, freshAdapter)] } 7).1
      ⟨(7, freshAdapter), by simp, rfl⟩
  · exact (C1_amended { processes := [(7, freshAdapter)] } 8).2 (by decide)

/-- Claim C2: after acknowledge(m) on a capability issued by an adapter,
exactly one subsequent deliver_response(m, r) is accepted: it removes m from
the expected-responses set and forwards (m, r) to the program; once m is no
longer in the set, any deliver_response(m, _) returns the value unmodified as
NotForMe and forwards nothing. -/
theorem C2_single_shot_response (a a' : Adapter) (w' : MessageIdWriteAdapter)
    (eff : List AckEffect) (m : MessageId) (r r' : MessageResult)
    (hack : MessageIdWriteAdapter.acknowledge { inner := some () } a m =
      some (w', a', eff)) :
    (a'.deliver_response m r).2 = RustResult.ok () ∧
    m ∉ (a'.deliver_response m r).1.expected_responses ∧
    (a'.deliver_response m r).1.inner_calls =
      a'.inner_calls ++ [ProgramCall.messageResponse m r] ∧
    (a'.deliver_response m r).1.deliver_response m r' =
      ((a'.deliver_response m r).1, RustResult.err r') ∧
    (∀ b : Adapter, m ∉ b.expected_responses →
      b.deliver_response m r' = (b, RustResult.err r')) := by
  have hb : ∀ b : Adapter, m ∉ b.expected_responses →
      b.deliver_response m r' = (b, RustResult.err r') := by
    intro b hnb
    simp [Adapter.deliver_response, hnb]
  simp [MessageIdWriteAdapter.acknowledge] at hack
  obtain ⟨hw, ha, heff⟩ := hack
  subst ha
  have hmem : m ∈ hsInsert a.expected_responses m := mem_hsInsert_self _ _
  have hdel : (({ a with expected_responses := hsInsert a.expected_responses m } :
      Adapter).deliver_response m r) =
      ({ a with
          expected_responses :=
            (hsInsert a.expected_responses m).filter (fun y => y != m),
          inner_calls := a.inner_calls ++ [ProgramCall.messageResponse m r] },
        RustResult.ok ()) := by
    simp [Adapter.deliver_response, hmem]
  rw [hdel]
  refine ⟨rfl, not_mem_filter_ne _ _, rfl, ?_, hb⟩
  exact hb _ (not_mem_filter_ne _ _)

/-- Claim C2 witness: concrete run of the contract at m = 42 on a fresh
adapter's capability. -/
theorem C2_witness :
    ((⟨[], [42], []⟩ : Adapter).deliver_response 42 (RustResult.ok [2])).2 =
      RustResult.ok () ∧
    42 ∉ ((⟨[], [42], []⟩ : Adapter).deliver_response 42 (RustResult.ok [2])).1.expected_responses ∧
    ((⟨[], [42], []⟩ : Adapter).deliver_response 42 (RustResult.ok [2])).1.inner_calls =
      ([] : List ProgramCall) ++ [ProgramCall.messageResponse 42 (RustResult.ok [2])] ∧
    (((⟨[], [42], []⟩ : Adapter).deliver_response 42 (RustResult.ok [2])).1.deliver_response
        42 (RustResult.ok [3])) =
      (((⟨[], [42], []⟩ : Adapter).deliver_response 42 (RustResult.ok [2])).1,
        RustResult.err (RustResult.ok [3])) ∧
    (∀ b : Adapter, 42 ∉ b.expected_responses →
      b.deliver_response 42 (RustResult.ok [3]) = (b, RustResult.err (RustResult.ok [3]))) :=
  C2_single_shot_response freshAdapter ⟨[], [42], []⟩ { inner := none }
    [AckEffect.forward_inner 42, AckEffect.insert_expected 42]
    42 (RustResult.ok [2]) (RustResult.ok [3]) rfl

/-- Claim C4: acknowledge(id) on a fresh identifier-write capability forwards
id to the program-supplied inner capability first and then inserts id into
the issuing adapter's expected-responses set (the effect trace, in order);
afterwards id is routable as a response (deliver_response(id) is accepted),
and the capability is consumed: a consumed capability's acknowledge is
refused (unreachable abort). -/
theorem C4_acknowledge_contract (a : Adapter) (id : MessageId) (r : MessageResult) :
    MessageIdWriteAdapter.acknowledge { inner := some () } a id =
      some ({ inner := none },
        { a with expected_responses := hsInsert a.expected_responses id },
        [AckEffect.forward_inner id, AckEffect.insert_expected id]) ∧
    (({ a with expected_responses := hsInsert a.expected_responses id } :
        Adapter).deliver_response id r).2 = RustResult.ok () ∧
    (∀ (b : Adapter) (id' : MessageId),
      MessageIdWriteAdapter.acknowledge { inner := none } b id' = none) ∧
    (∀ (c : NativeProgramsCollection) (idx : Nat) (pid : Pid) (b : Adapter),
      c.processes.get? idx = some (pid, b) →
      NativeProgramsCollectionMessageIdWrite.acknowledge
          { adapter_index := idx, write := { inner := some () } } c id =
        some ({ processes := c.processes.set idx (pid,
          { b with expected_responses := hsInsert b.expected_responses id }) },
          [AckEffect.forward_inner id, AckEffect.insert_expected id])) := by
  refine ⟨rfl, ?_, fun b id' => rfl, ?_⟩
  · simp [Adapter.deliver_response, mem_hsInsert_self]
  · intro c idx pid b hget
    rw [List.get?_eq_getElem?] at hget
    simp [NativeProgramsCollectionMessageIdWrite.acknowledge, hget,
      MessageIdWriteAdapter.acknowledge]

/-- Claim C4 witness: the bus-scoped capability for adapter index 0 writes
identifier 5 through to that adapter's expected-responses set. -/
theorem C4_witness :
    NativeProgramsCollectionMessageIdWrite.acknowledge
        { adapter_index := 0, write := { inner := some () } }
        ⟨[(1, freshAdapter)]⟩ 5 =
      some (⟨[(1, ⟨[], [5], []⟩)]⟩,
        [AckEffect.forward_inner 5, AckEffect.insert_expected 5]) :=
  (C4_acknowledge_contract freshAdapter 5 (RustResult.ok [])).2.2.2
    ⟨[(1, freshAdapter)]⟩ 0 1 freshAdapter rfl

/-- Claim C5: on an Emit on the reserved interface-registration interface,
when the body decodes as Register(H) the adapter inserts H into its
registered-interfaces set; when the body fails to decode the registration is
silently skipped. In both cases the Emit surfaces unchanged (same interface
and body, capability wrapped) with no error reported. -/
theorem C5_registration_on_emit (a : Adapter) (w : Option Unit)
    (m : EncodedMessage) (H : InterfaceHash) :
    (InterfaceMessage.decode m = some (InterfaceMessage.register H) →
      a.poll_next_event (Poll.ready (NativeProgramEvent.emit INTERFACE w m)) =
        ({ a with registered_interfaces := hsInsert a.registered_interfaces H },
          Poll.ready (NativeProgramEvent.emit INTERFACE
            (w.map (fun u => { inner := some u })) m))) ∧
    (InterfaceMessage.decode m = none →
      a.poll_next_event (Poll.ready (NativeProgramEvent.emit INTERFACE w m)) =
        (a, Poll.ready (NativeProgramEvent.emit INTERFACE
          (w.map (fun u => { inner := some u })) m))) := by
  constructor
  · intro hdec
    simp [Adapter.poll_next_event, hdec]
  · intro hdec
    simp [Adapter.poll_next_event, hdec]

/-- Claim C5 witness: a decodable Register body registers H0; an undecodable
body [7] registers nothing; both Emits surface unchanged. -/
theorem C5_witness :
    freshAdapter.poll_next_event
        (Poll.ready (NativeProgramEvent.emit INTERFACE none (0 :: H0))) =
      (⟨[H0], [], []⟩,
        Poll.ready (NativeProgramEvent.emit INTERFACE none (0 :: H0))) ∧
    freshAdapter.poll_next_event
        (Poll.ready (NativeProgramEvent.emit INTERFACE none [7])) =
      (freshAdapter, Poll.ready (NativeProgramEvent.emit INTERFACE none [7])) := by
  constructor
  · exact (C5_registration_on_emit freshAdapter none (0 :: H0) H0).1 (by decide)
  · exact (C5_registration_on_emit freshAdapter none [7] H0).2 (by decide)

/-- Claim C3: with H registered at positions i < j and i the first position
registering H, interface_message(H, …) changes the collection only at
position i, appending the message to that adapter's program, and position j
is left exactly as it was: the walk stops at the first acceptor. -/
theorem C3_first_registered_wins (c : NativeProgramsCollection) (H : InterfaceHash)
    (mid : Option MessageId) (e : Pid) (m : EncodedMessage) (i j : Nat)
    (pai paj : Pid × Adapter)
    (hij : i < j)
    (hgeti : c.processes.get? i = some pai)
    (hgetj : c.processes.get? j = some paj)
    (hreg : H ∈ pai.2.registered_interfaces)
    (hfirst : ∀ k pak, k < i → c.processes.get? k = some pak →
      H ∉ pak.2.registered_interfaces) :
    c.interface_message H mid e m =
      some { processes := c.processes.set i (pai.1, { pai.2 with inner_calls :=
        pai.2.inner_calls ++ [ProgramCall.interfaceMessage H mid e m] }) } ∧
    (c.processes.set i (pai.1, { pai.2 with inner_calls :=
      pai.2.inner_calls ++ [ProgramCall.interfaceMessage H mid e m] })).get? i =
      some (pai.1, { pai.2 with inner_calls :=
        pai.2.inner_calls ++ [ProgramCall.interfaceMessage H mid e m] }) ∧
    (c.processes.set i (pai.1, { pai.2 with inner_calls :=
      pai.2.inner_calls ++ [ProgramCall.interfaceMessage H mid e m] })).get? j =
      some paj := by
  have hloop := interfaceLoop_accepts c.processes H mid e m i pai hgeti hreg hfirst
  obtain ⟨hi, -⟩ := List.get?_eq_some.1 hgeti
  refine ⟨?_, ?_, ?_⟩
  · simp [NativeProgramsCollection.interface_message, hloop]
  · exact List.get?_set_eq_of_lt _ hi
  · rw [List.get?_set_ne _ _ (Nat.ne_of_lt hij)]
    exact hgetj

/-- Claim C3 witness: scenario S3 — two adapters both register H0; the
message routes to position 0, position 1 stays untouched. -/
theorem C3_witness :
    (⟨[(1, aRegH0), (2, aRegH0)]⟩ : NativeProgramsCollection).interface_message
        H0 none 3 [255] =
      some ⟨[(1, ⟨[H0], [], [ProgramCall.interfaceMessage H0 none 3 [255]]⟩), (2, aRegH0)]⟩ ∧
    ([(1, (⟨[H0], [], [ProgramCall.interfaceMessage H0 none 3 [255]]⟩ : Adapter)), (2, aRegH0)]).get? 0 =
      some (1, ⟨[H0], [], [ProgramCall.interfaceMessage H0 none 3 [255]]⟩) ∧
    ([(1, (⟨[H0], [], [ProgramCall.interfaceMessage H0 none 3 [255]]⟩ : Adapter)), (2, aRegH0)]).get? 1 =
      some (2, aRegH0) :=
  C3_first_registered_wins ⟨[(1, aRegH0), (2, aRegH0)]⟩
    H0 none 3 [255] 0 1 (1, aRegH0) (2, aRegH0)
    (by decide) rfl rfl (by decide)
    (fun k pak hk _ => absurd hk (Nat.not_lt_zero k))

/-- Claim C6, counterexample: the claim says the two delivery walks are the
only operations of the collection that can abort, but add (push) also aborts:
on a duplicate Pid it hits assert! and panics (modelled by none). -/
theorem C6_counterexample :
    NativeProgramsCollection.push { processes := [(4, freshAdapter)] } 4 = none := by
  decide

/-- Claim C6 (amended): interface_message with an interface registered by no
adapter, and message_response with an identifier in no adapter's
expected-responses set, accept nowhere and abort (the unroutable panic);
among the delivery operations these are the only aborting ones, though add
also aborts, on a duplicate Pid. -/
theorem C6_unroutable_is_fatal :
    (∀ (c : NativeProgramsCollection) (H : InterfaceHash) (mid : Option MessageId)
        (e : Pid) (m : EncodedMessage),
      (∀ pa ∈ c.processes, H ∉ pa.2.registered_interfaces) →
      c.interface_message H mid e m = none) ∧
    (∀ (c : NativeProgramsCollection) (mid : MessageId) (r : MessageResult),
      (∀ pa ∈ c.processes, mid ∉ pa.2.expected_responses) →
      c.message_response mid r = none) := by
  constructor
  · intro c H mid e m h
    simp [NativeProgramsCollection.interface_message,
      interfaceLoop_unroutable _ _ _ _ _ h]
  · intro c mid r h
    simp [NativeProgramsCollection.message_response,
      responseLoop_unroutable _ _ _ h]

/-- Claim C6 witness: scenario S4 — on the empty collection an interface
message and a response are both unroutable and abort. -/
theorem C6_witness :
    NativeProgramsCollection.new.interface_message H0 none 3 [] = none ∧
    NativeProgramsCollection.new.message_response 9 (RustResult.ok []) = none := by
  constructor
  · exact C6_unroutable_is_fatal.1 NativeProgramsCollection.new H0 none 3 []
      (fun pa h => absurd h (List.not_mem_nil pa))
  · exact C6_unroutable_is_fatal.2 NativeProgramsCollection.new 9 (RustResult.ok [])
      (fun pa h => absurd h (List.not_mem_nil pa))

/-- Claim C7, counterexample: the claim says each poll of next_event polls
every adapter exactly once. With two adapters where the first is Ready, the
walk returns at the first adapter: the polled-index trace contains index 1
zero times, and the second adapter's pending Register emission (which one
poll would have registered, last conjunct) is never seen — its registered
set stays empty (middle conjunct). -/
theorem C7_counterexample :
    (({ processes := [(1, freshAdapter), (2, freshAdapter)] } :
        NativeProgramsCollection).next_event
        [Poll.ready (NativeProgramEvent.emit H0 none [1]),
         Poll.ready (NativeProgramEvent.emit INTERFACE none (0 :: H0))]).1.2.count 1 = 0 ∧
    ((({ processes := [(1, freshAdapter), (2, freshAdapter)] } :
        NativeProgramsCollection).next_event
        [Poll.ready (NativeProgramEvent.emit H0 none [1]),
         Poll.ready (NativeProgramEvent.emit INTERFACE none (0 :: H0))]).1.1.processes.get? 1).map
      (fun pa => pa.2.registered_interfaces) = some [] ∧
    (freshAdapter.poll_next_event
      (Poll.ready (NativeProgramEvent.emit INTERFACE none (0 :: H0)))).1.registered_interfaces =
      [H0] := by
  refine ⟨by decide, by decide, by decide⟩

/-- Claim C7 (amended): each poll of the future returned by next_event walks
the adapters in insertion order and stops at the first Ready: the adapters up
to and including the first Ready one are polled exactly once each (trace =
range (k+1)) and later adapters are not polled; the first Ready Emit is
returned tagged with the emitter's Pid and with its capability wrapped; if
every adapter polls Pending (in particular on the empty collection) every
adapter is polled exactly once and the poll returns Pending. -/
theorem C7_amended :
    (∀ (c : NativeProgramsCollection) (polls : List (Poll (NativeProgramEvent Unit))),
      (∀ k, k < c.processes.length → polls.getD k Poll.pending = Poll.pending) →
      c.next_event polls = ((c, List.range c.processes.length), Poll.pending)) ∧
    (∀ (c : NativeProgramsCollection) (polls : List (Poll (NativeProgramEvent Unit)))
        (k : Nat) (pid : Pid) (a : Adapter) (interface : InterfaceHash)
        (w : Option Unit) (m : EncodedMessage),
      c.processes.get? k = some (pid, a) →
      polls.getD k Poll.pending = Poll.ready (NativeProgramEvent.emit interface w m) →
      (∀ k', k' < k → polls.getD k' Poll.pending = Poll.pending) →
      c.next_event polls =
        (({ processes := c.processes.set k (pid,
            (a.poll_next_event (Poll.ready (NativeProgramEvent.emit interface w m))).1) },
          List.range (k + 1)),
          Poll.ready (NativeProgramsCollectionEvent.emit interface pid m
            (w.map (fun u => { adapter_index := k, write := { inner := some u } }))))) := by
  constructor
  · intro c polls h
    unfold NativeProgramsCollection.next_event
    rw [pollCollection_all_pending c.processes polls 0 h]
    simp
  · intro c polls k pid a interface w m hget hk hbefore
    unfold NativeProgramsCollection.next_event
    rw [pollCollection_first_ready_emit c.processes polls 0 k pid a interface w m
      hget hk hbefore]
    simp

/-- Claim C7 witness: the empty collection polls Pending (scenario S1), and a
collection whose second adapter is the first Ready one returns that Emit
tagged with Pid 2 after polling exactly adapters 0 and 1. -/
theorem C7_witness :
    NativeProgramsCollection.new.next_event [] =
      ((NativeProgramsCollection.new, List.range 0), Poll.pending) ∧
    ({ processes := [(1, freshAdapter), (2, freshAdapter)] } :
        NativeProgramsCollection).next_event
        [Poll.pending, Poll.ready (NativeProgramEvent.emit H0 (some ()) [9])] =
      (({ processes := ([(1, freshAdapter), (2, freshAdapter)]).set 1 (2,
          (freshAdapter.poll_next_event
            (Poll.ready (NativeProgramEvent.emit H0 (some ()) [9]))).1) },
        List.range 2),
        Poll.ready (NativeProgramsCollectionEvent.emit H0 2 [9]
          (some { adapter_index := 1, write := { inner := some () } }))) := by
  constructor
  · exact C7_amended.1 NativeProgramsCollection.new []
      (fun k hk => absurd hk (Nat.not_lt_zero k))
  · exact C7_amended.2 { processes := [(1, freshAdapter), (2, freshAdapter)] }
      [Poll.pending, Poll.ready (NativeProgramEvent.emit H0 (some ()) [9])]
      1 2 freshAdapter H0 (some ()) [9] rfl rfl
      (by intro k' hk'; interval_cases k'; rfl)

/-- Claim C8: registration is monotonic. Polling never shrinks an adapter's
registered-interfaces set, acknowledge leaves it unchanged, and the
collection's delivery, response, destroy-broadcast and poll operations
preserve every adapter's registered interfaces (regMono); an interface in
the registered set is always accepted by deliver_interface_message. -/
theorem C8_registration_monotonic :
    (∀ (a : Adapter) (ip : Poll (NativeProgramEvent Unit)) (H : InterfaceHash),
      H ∈ a.registered_interfaces →
      H ∈ (a.poll_next_event ip).1.registered_interfaces) ∧
    (∀ (w : MessageIdWriteAdapter) (a : Adapter) (id : MessageId)
        (w' : MessageIdWriteAdapter) (a' : Adapter) (eff : List AckEffect),
      w.acknowledge a id = some (w', a', eff) →
      a'.registered_interfaces = a.registered_interfaces) ∧
    (∀ (c c' : NativeProgramsCollection) (H : InterfaceHash) (mid : Option MessageId)
        (e : Pid) (m : EncodedMessage),
      c.interface_message H mid e m = some c' → regMono c c') ∧
    (∀ (c c' : NativeProgramsCollection) (mid : MessageId) (r : MessageResult),
      c.message_response mid r = some c' → regMono c c') ∧
    (∀ (c : NativeProgramsCollection) (p : Pid), regMono c (c.process_destroyed p)) ∧
    (∀ (c : NativeProgramsCollection) (polls : List (Poll (NativeProgramEvent Unit))),
      regMono c ((c.next_event polls).1.1)) ∧
    (∀ (a : Adapter) (H : InterfaceHash) (mid : Option MessageId) (e : Pid)
        (m : EncodedMessage),
      H ∈ a.registered_interfaces →
      (a.deliver_interface_message H mid e m).2 = RustResult.ok ()) := by
  refine ⟨poll_next_event_registered_mono, ?_, ?_, ?_, ?_, ?_, ?_⟩
  · intro w a id w' a' eff h
    cases hw : w.inner with
    | none => rw [MessageIdWriteAdapter.acknowledge, hw] at h; simp at h
    | some u =>
      rw [MessageIdWriteAdapter.acknowledge, hw] at h
      simp at h
      obtain ⟨_, ha, _⟩ := h
      rw [← ha]
  · intro c c' H mid e m h
    simp [NativeProgramsCollection.interface_message] at h
    obtain ⟨ps', hloop, hc'⟩ := h
    subst hc'
    intro k pa hget
    obtain ⟨pa', hget', hfst, hr, _⟩ :=
      interfaceLoop_preserves_sets c.processes ps' H mid e m hloop k pa hget
    exact ⟨pa', hget', hfst, fun x hx => hr ▸ hx⟩
  · intro c c' mid r h
    simp [NativeProgramsCollection.message_response] at h
    obtain ⟨ps', hloop, hc'⟩ := h
    subst hc'
    intro k pa hget
    obtain ⟨pa', hget', hfst, hr⟩ :=
      responseLoop_preserves_registered c.processes ps' mid r hloop k pa hget
    exact ⟨pa', hget', hfst, fun x hx => hr ▸ hx⟩
  · intro c p k pa hget
    refine ⟨(pa.1, pa.2.process_destroyed p), ?_, rfl, fun x hx => hx⟩
    show (c.processes.map _).get? k = _
    rw [List.get?_map, hget]
    rfl
  · intro c polls k pa hget
    exact pollCollection_registered_mono c.processes polls 0 k pa hget
  · intro a H mid e m h
    simp [Adapter.deliver_interface_message, h]

/-- Claim C8 witness: concrete instances of each monotonicity conjunct. -/
theorem C8_witness :
    H0 ∈ ((⟨[H0], [], []⟩ : Adapter).poll_next_event Poll.pending).1.registered_interfaces ∧
    (⟨[H0], [9], []⟩ : Adapter).registered_interfaces =
      (⟨[H0], [], []⟩ : Adapter).registered_interfaces ∧
    regMono { processes := [(1, ⟨[H0], [], []⟩)] }
      { processes := [(1, ⟨[H0], [], [ProgramCall.interfaceMessage H0 none 3 [1]]⟩)] } ∧
    regMono { processes := [(1, ⟨[], [42], []⟩)] }
      { processes := [(1, ⟨[], [], [ProgramCall.messageResponse 42 (RustResult.ok [2])]⟩)] } ∧
    regMono { processes := [(1, ⟨[H0], [], []⟩)] }
      (NativeProgramsCollection.process_destroyed { processes := [(1, ⟨[H0], [], []⟩)] } 7) ∧
    regMono { processes := [(1, ⟨[H0], [], []⟩)] }
      ((NativeProgramsCollection.next_event { processes := [(1, ⟨[H0], [], []⟩)] } []).1.1) ∧
    ((⟨[H0], [], []⟩ : Adapter).deliver_interface_message H0 none 3 [1]).2 =
      RustResult.ok () := by
  refine ⟨?_, ?_, ?_, ?_, ?_, ?_, ?_⟩
  · exact C8_registration_monotonic.1 ⟨[H0], [], []⟩ Poll.pending H0 (by decide)
  · exact C8_registration_monotonic.2.1 { inner := some () } ⟨[H0], [], []⟩ 9
      { inner := none } ⟨[H0], [9], []⟩
      [AckEffect.forward_inner 9, AckEffect.insert_expected 9] (by decide)
  · exact C8_registration_monotonic.2.2.1 { processes := [(1, ⟨[H0], [], []⟩)] }
      { processes := [(1, ⟨[H0], [], [ProgramCall.interfaceMessage H0 none 3 [1]]⟩)] }
      H0 none 3 [1] (by decide)
  · exact C8_registration_monotonic.2.2.2.1 { processes := [(1, ⟨[], [42], []⟩)] }
      { processes := [(1, ⟨[], [], [ProgramCall.messageResponse 42 (RustResult.ok [2])]⟩)] }
      42 (RustResult.ok [2]) (by decide)
  · exact C8_registration_monotonic.2.2.2.2.1 { processes := [(1, ⟨[H0], [], []⟩)] } 7
  · exact C8_registration_monotonic.2.2.2.2.2.1 { processes := [(1, ⟨[H0], [], []⟩)] } []
  · exact C8_registration_monotonic.2.2.2.2.2.2 ⟨[H0], [], []⟩ H0 none 3 [1] (by decide)

/-- Claim C9: process_destroyed(p) notifies every adapter's program exactly
once, unconditionally: the resulting collection is the insertion-order map
appending a single processDestroyed notification to each adapter's program
log, and every position k holds its old adapter with exactly that one new
call. -/
theorem C9_broadcast (c : NativeProgramsCollection) (p : Pid) :
    (c.process_destroyed p).processes =
      c.processes.map (fun q => (q.1, { q.2 with inner_calls :=
        q.2.inner_calls ++ [ProgramCall.processDestroyed p] })) ∧
    (∀ k pa, c.processes.get? k = some pa →
      (c.process_destroyed p).processes.get? k =
        some (pa.1, { pa.2 with inner_calls :=
          pa.2.inner_calls ++ [ProgramCall.processDestroyed p] })) := by
  constructor
  · rfl
  · intro k pa hget
    show (c.processes.map _).get? k = _
    rw [List.get?_map, hget]
    rfl

/-- Claim C9 witness: scenario S5 — three programs all hear about Pid 7, in
insertion order. -/
theorem C9_witness :
    (NativeProgramsCollection.process_destroyed
        { processes := [(1, freshAdapter), (2, freshAdapter), (3, freshAdapter)] } 7).processes =
      ([(1, freshAdapter), (2, freshAdapter), (3, freshAdapter)]).map
        (fun q => (q.1, { q.2 with inner_calls :=
          q.2.inner_calls ++ [ProgramCall.processDestroyed 7] })) ∧
    (NativeProgramsCollection.process_destroyed
        { processes := [(1, freshAdapter), (2, freshAdapter), (3, freshAdapter)] } 7).processes.get? 1 =
      some (2, ⟨[], [], [ProgramCall.processDestroyed 7]⟩) := by
  constructor
  · exact (C9_broadcast
      { processes := [(1, freshAdapter), (2, freshAdapter), (3, freshAdapter)] } 7).1
  · exact (C9_broadcast
      { processes := [(1, freshAdapter), (2, freshAdapter), (3, freshAdapter)] } 7).2
      1 (2, freshAdapter) rfl

/-- Claim C10: when some adapter accepts, the payload forwarded to the
accepting adapter's program is exactly the caller's original body
(respectively original result), even when earlier adapters declined first:
the walk's hand-off returns the value itself, never the empty placeholder the
source temporarily swaps in. -/
theorem C10_payload_preserved :
    (∀ (c : NativeProgramsCollection) (H : InterfaceHash) (mid : Option MessageId)
        (e : Pid) (m : EncodedMessage) (k : Nat) (pak : Pid × Adapter),
      c.processes.get? k = some pak →
      H ∈ pak.2.registered_interfaces →
      (∀ k' pak', k' < k → c.processes.get? k' = some pak' →
        H ∉ pak'.2.registered_interfaces) →
      c.interface_message H mid e m =
        some { processes := c.processes.set k (pak.1, { pak.2 with inner_calls :=
          pak.2.inner_calls ++ [ProgramCall.interfaceMessage H mid e m] }) }) ∧
    (∀ (c : NativeProgramsCollection) (mid : MessageId) (r : MessageResult)
        (k : Nat) (pak : Pid × Adapter),
      c.processes.get? k = some pak →
      mid ∈ pak.2.expected_responses →
      (∀ k' pak', k' < k → c.processes.get? k' = some pak' →
        mid ∉ pak'.2.expected_responses) →
      c.message_response mid r =
        some { processes := c.processes.set k (pak.1, { pak.2 with
          expected_responses := pak.2.expected_responses.filter (fun y => y != mid),
          inner_calls := pak.2.inner_calls ++ [ProgramCall.messageResponse mid r] }) }) := by
  constructor
  · intro c H mid e m k pak hget hreg hbefore
    have hloop := interfaceLoop_accepts c.processes H mid e m k pak hget hreg hbefore
    simp [NativeProgramsCollection.interface_message, hloop]
  · intro c mid r k pak hget hexp hbefore
    have hloop := responseLoop_accepts c.processes mid r k pak hget hexp hbefore
    simp [NativeProgramsCollection.message_response, hloop]

/-- Claim C10 witness: the first adapter declines (nothing registered /
expected), the second accepts, and its program receives the original body
[171] and the original response Ok [2]. -/
theorem C10_witness :
    (⟨[(1, freshAdapter), (2, aRegH0)]⟩ : NativeProgramsCollection).interface_message
        H0 none 3 [171] =
      some ⟨[(1, freshAdapter), (2, ⟨[H0], [], [ProgramCall.interfaceMessage H0 none 3 [171]]⟩)]⟩ ∧
    (⟨[(1, freshAdapter), (2, aExp42)]⟩ : NativeProgramsCollection).message_response
        42 (RustResult.ok [2]) =
      some ⟨[(1, freshAdapter), (2, ⟨[], [], [ProgramCall.messageResponse 42 (RustResult.ok [2])]⟩)]⟩ := by
  constructor
  · exact C10_payload_preserved.1 ⟨[(1, freshAdapter), (2, aRegH0)]⟩
      H0 none 3 [171] 1 (2, aRegH0) rfl (by decide)
      (by intro k' pak' hk' hget'
          interval_cases k'
          simp at hget'
          simp [← hget', freshAdapter])
  · exact C10_payload_preserved.2 ⟨[(1, freshAdapter), (2, aExp42)]⟩
      42 (RustResult.ok [2]) 1 (2, aExp42) rfl (by decide)
      (by intro k' pak' hk' hget'
          interval_cases k'
          simp at hget'
          simp [← hget', freshAdapter])

end Redshirt
